import Mathlib

/-!
Shallow embedding of `flaskbb/admin/models.py`: the `SettingsGroup` and
`Setting` models and the four class-level operations `get_form`, `get_all`,
`update` and `as_dict`.

Modelling conventions:
* The database is a pair of lists (`DB`): the `settingsgroup` table and the
  `settings` table.  Primary-key uniqueness is carried as a `Nodup`
  hypothesis where a theorem needs it.
* The pickled `value` column is polymorphic, so every definition is
  parametric in a value type `V`.
* The pickled `extra` column is a nullable dict whose only keys read by the
  code are `min`, `max`, `choices` and `coerce`; it is embedded as
  `Option (Extra V)` with one `Option` field per key (`isSome` is Python's
  `key in dict`).  `choices` is stored in the code as a zero-argument
  callable; the embedding stores the option list the call returns, and
  `coerce` is stored as an opaque tag naming the callable.
* Python exceptions are values of `PyError`; a raising operation returns
  `Except PyError` (or carries an `Option PyError` when the state reached
  before the exception matters, as in `update`).
* Python's `x in "string"` (from `setting.value_type in ("string")`, where
  the parentheses do not build a tuple) is a substring test, embedded by
  `pyInStr`.
-/

set_option autoImplicit false

namespace Flaskbb

/-- Python substring helper: does the list start with the given pattern? -/
def listStarts : List Char → List Char → Bool
  | _, [] => true
  | [], _ :: _ => false
  | a :: as, b :: bs => a == b && listStarts as bs

/-- Python substring helper: does the list contain the pattern as a
contiguous segment? -/
def hasSub : List Char → List Char → Bool
  | [], pat => pat.isEmpty
  | h :: t, pat => listStarts (h :: t) pat || hasSub t pat

/-- Python's `x in hay` on strings: substring containment. -/
def pyInStr (x hay : String) : Bool :=
  hasSub hay.data x.data

/-- Python's `s.lower()` (ASCII): lower-case every character. -/
def pyLower (s : String) : String :=
  ⟨s.data.map Char.toLower⟩

/-- Python's `s.upper()` (ASCII): upper-case every character. -/
def pyUpper (s : String) : String :=
  ⟨s.data.map Char.toUpper⟩

/-- Row of the `settingsgroup` table. -/
structure SettingsGroup where
  key : String
  name : String
  description : String
deriving DecidableEq, Repr

/-- The pickled `extra` dict of a `Setting`, restricted to the keys the code
reads.  A `none` field is the key being absent. -/
structure Extra (V : Type) where
  min : Option Int
  max : Option Int
  choices : Option (List (V × String))
  coerce : Option String
deriving DecidableEq, Repr

/-- Row of the `settings` table. -/
structure Setting (V : Type) where
  key : String
  value : V
  settingsgroup : String
  name : String
  description : String
  value_type : String
  extra : Option (Extra V)
deriving DecidableEq, Repr

/-- The two tables. -/
structure DB (V : Type) where
  groups : List SettingsGroup
  settings : List (Setting V)
deriving DecidableEq, Repr

/-- Python exceptions that the embedded operations can raise. -/
inductive PyError where
  | notFound
  | keyError (k : String)
  | typeError (msg : String)
  | attributeError (msg : String)
deriving DecidableEq, Repr

/-- A wtforms validator attached to a generated field. -/
inductive Validator where
  | numberRangeMin (n : Int)
  | numberRangeMax (n : Int)
  | lengthMin (n : Int)
  | lengthMax (n : Int)
deriving DecidableEq, Repr

/-- The coercion passed to a select field: `extra['coerce']` when the key is
present, else the `unicode` fallback. -/
inductive Coerce where
  | unicode
  | custom (tag : String)
deriving DecidableEq, Repr

/-- A wtforms field attached to the generated `SettingsForm` class, one
constructor per field class used by `Setting.get_form`. -/
inductive Field (V : Type) where
  | integerField (name : String) (vals : List Validator) (description : String)
  | floatField (name : String) (vals : List Validator) (description : String)
  | textField (name : String) (vals : List Validator) (description : String)
  | selectMultipleField (name : String) (choices : List (V × String))
      (coerce_to : Coerce) (description : String)
  | selectField (name : String) (coerce_to : Coerce)
      (choices : List (V × String)) (description : String)
  | booleanField (name : String) (description : String)
deriving DecidableEq, Repr

namespace Field

variable {V : Type}

/-- The display name the field was constructed with. -/
def fieldName : Field V → String
  | integerField n _ _ => n
  | floatField n _ _ => n
  | textField n _ _ => n
  | selectMultipleField n _ _ _ => n
  | selectField n _ _ _ => n
  | booleanField n _ => n

/-- The description the field was constructed with. -/
def fieldDesc : Field V → String
  | integerField _ _ d => d
  | floatField _ _ d => d
  | textField _ _ d => d
  | selectMultipleField _ _ _ d => d
  | selectField _ _ _ d => d
  | booleanField _ d => d

/-- The validator list the field was constructed with (select-like and
boolean fields are constructed without one). -/
def fieldValidators : Field V → List Validator
  | integerField _ v _ => v
  | floatField _ v _ => v
  | textField _ v _ => v
  | selectMultipleField _ _ _ _ => []
  | selectField _ _ _ _ => []
  | booleanField _ _ => []

end Field

variable {V : Type}

/-- Python dict assignment `d[k] = v` on an association list: replaces the
entry for `k` when present, else appends. -/
def dictSet : List (String × V) → String → V → List (String × V)
  | [], k, v => [(k, v)]
  | (k', v') :: rest, k, v =>
    if k' == k then (k, v) :: rest else (k', v') :: dictSet rest k v

/-- Python `d.update(u)`: assign every entry of `u` into `d` in order. -/
def dictUpdateAll (d u : List (String × V)) : List (String × V) :=
  u.foldl (fun acc p => dictSet acc p.1 p.2) d

/-- First value stored under a key, Python `d[k]` when it succeeds. -/
def dictGet (d : List (String × V)) (k : String) : Option V :=
  (d.find? (fun p => p.1 == k)).map (·.2)

/-- The `min`-validator prefix built by `get_form` for one setting:
`if "min" in setting.extra: ...` with the numeric branch for
`value_type in ("integer", "float")` and the length branch for
`value_type in ("string")` (a Python substring test). -/
def minValidators (value_type : String) (e : Extra V) : List Validator :=
  match e.min with
  | none => []
  | some m =>
    if value_type = "integer" ∨ value_type = "float" then
      [Validator.numberRangeMin m]
    else if pyInStr value_type "string" then
      [Validator.lengthMin m]
    else []

/-- The `max`-validator suffix built by `get_form` for one setting,
mirroring `minValidators`. -/
def maxValidators (value_type : String) (e : Extra V) : List Validator :=
  match e.max with
  | none => []
  | some m =>
    if value_type = "integer" ∨ value_type = "float" then
      [Validator.numberRangeMax m]
    else if pyInStr value_type "string" then
      [Validator.lengthMax m]
    else []

/-- The coercion a select branch computes: `extra['coerce']` when the key is
present, `unicode` otherwise. -/
def coerceOf (e : Extra V) : Coerce :=
  match e.coerce with
  | some c => .custom c
  | none => .unicode

namespace Setting

/-- One iteration of the `get_form` loop: the `setattr` calls (key, field)
this setting contributes to `SettingsForm`, in program order, or the
exception the iteration raises.  `s.extra = none` makes the membership test
`"min" in setting.extra` raise `TypeError`; a select kind without a
`choices` key raises `KeyError` when `setting.extra['choices']` is
evaluated. -/
def fieldSets (s : Setting V) : Except PyError (List (String × Field V)) :=
  match s.extra with
  | none => .error (.typeError "argument of type NoneType is not iterable")
  | some e =>
    let fv := minValidators s.value_type e ++ maxValidators s.value_type e
    let a1 : List (String × Field V) :=
      if s.value_type = "integer" then
        [(s.key, .integerField s.name fv s.description)]
      else if s.value_type = "float" then
        [(s.key, .floatField s.name fv s.description)]
      else []
    let a2 : List (String × Field V) :=
      if s.value_type = "string" then
        [(s.key, .textField s.name fv s.description)]
      else []
    let coerce_to : Coerce := coerceOf e
    let a3 : Except PyError (List (String × Field V)) :=
      if s.value_type = "selectmultiple" then
        match e.choices with
        | none => .error (.keyError "choices")
        | some ch =>
          .ok [(s.key, .selectMultipleField s.name ch coerce_to s.description)]
      else .ok []
    let a4 : Except PyError (List (String × Field V)) :=
      if s.value_type = "select" then
        match e.choices with
        | none => .error (.keyError "choices")
        | some ch =>
          .ok [(s.key, .selectField s.name coerce_to ch s.description)]
      else .ok []
    let a5 : List (String × Field V) :=
      if s.value_type = "boolean" then
        [(s.key, .booleanField s.name s.description)]
      else []
    match a3 with
    | .error err => .error err
    | .ok l3 =>
      match a4 with
      | .error err => .error err
      | .ok l4 => .ok (a1 ++ a2 ++ l3 ++ l4 ++ a5)

/-- `Setting.get_form`, applied to the enumeration of `group.settings`: the
fields attached to the synthesized `SettingsForm`, keyed by setting key, or
the first exception raised. -/
def get_form : List (Setting V) → Except PyError (List (String × Field V))
  | [] => .ok []
  | s :: rest =>
    match fieldSets s with
    | .error e => .error e
    | .ok out =>
      match get_form rest with
      | .error e => .error e
      | .ok r => .ok (out ++ r)

/-- The settings of a group, through the `settings` relationship (settings
whose foreign key equals the group key). -/
def groupSettings (db : DB V) (g : SettingsGroup) : List (Setting V) :=
  db.settings.filter (fun s => s.settingsgroup == g.key)

/-- `Setting.get_form` on a group of the database. -/
def get_form_of (db : DB V) (g : SettingsGroup) :
    Except PyError (List (String × Field V)) :=
  get_form (groupSettings db g)

/-- `Setting.get_all`: `cls.query.all()`. -/
def get_all (db : DB V) : List (Setting V) :=
  db.settings

/-- Assignment `setting.value = value` on the row found by
`filter(Setting.key == k).first()`: overwrite the value of the first row
whose key equals `k`. -/
def setValue : List (Setting V) → String → V → List (Setting V)
  | [], _, _ => []
  | s :: rest, k, v =>
    if s.key == k then { s with value := v } :: rest
    else s :: setValue rest k v

/-- The loop of `Setting.update` over `settings.iteritems()`.  Returns the
table after the commits performed so far, the `updated_settings` dict, and
the exception that stopped the loop when one was raised (a missing key makes
`first()` return `None`, so `setting.value = value` raises
`AttributeError`). -/
def updateCore : List (String × V) → List (Setting V) → List (String × V) →
    List (Setting V) × List (String × V) × Option PyError
  | [], db, acc => (db, acc, none)
  | (k, v) :: rest, db, acc =>
    match db.find? (fun s => s.key == pyLower k) with
    | none => (db, acc, some (.attributeError "NoneType object has no attribute value"))
    | some s =>
      updateCore rest (setValue db (pyLower k) v) (dictSet acc (pyUpper s.key) v)

/-- `Setting.update(settings)` without an `app` argument: the new table, the
`updated_settings` dict and the exception, if one was raised. -/
def update (db : List (Setting V)) (changes : List (String × V)) :
    List (Setting V) × List (String × V) × Option PyError :=
  updateCore changes db []

/-- `Setting.update(settings, app)`: when the loop finishes without an
exception and `app` is not `None`, `app.config.update(updated_settings)` is
executed; otherwise the config is left untouched. -/
def updateApp (db : List (Setting V)) (changes : List (String × V))
    (app : Option (List (String × V))) :
    List (Setting V) × Option (List (String × V)) × Option PyError :=
  let r := update db changes
  match r.2.2, app with
  | none, some cfg => (r.1, some (dictUpdateAll cfg r.2.1), none)
  | e, _ => (r.1, app, e)

/-- Key casing used by `as_dict`: `setting.key.upper()` when `upper` is
true, else the key as stored. -/
def caseKey (upper : Bool) (k : String) : String :=
  if upper then pyUpper k else k

/-- The dict built by the loop of `as_dict` over a result list. -/
def buildDict (upper : Bool) (l : List (Setting V)) : List (String × V) :=
  l.foldl (fun d s => dictSet d (caseKey upper s.key) s.value) []

/-- `Setting.as_dict(from_group, upper)`:  with `from_group` given the group
is fetched by `filter_by(key=from_group).first_or_404()` (no case folding),
raising `NotFound` when absent; otherwise all settings are enumerated. -/
def as_dict (db : DB V) (from_group : Option String) (upper : Bool) :
    Except PyError (List (String × V)) :=
  match from_group with
  | some g =>
    match db.groups.find? (fun gr => gr.key == g) with
    | none => .error .notFound
    | some gr => .ok (buildDict upper (groupSettings db gr))
  | none => .ok (buildDict upper db.settings)

end Setting

/-- The `value_type` values that `get_form` maps to a field. -/
def recognizedKinds : List String :=
  ["integer", "float", "string", "boolean", "select", "selectmultiple"]

/-- Concrete fixture: an integer setting with a `min` bound. -/
def wsInt : Setting Nat :=
  ⟨"a", 0, "general", "Name A", "Desc A", "integer", some ⟨some 3, none, none, none⟩⟩

/-- Concrete fixture: a boolean setting whose `extra` column is NULL. -/
def wsBoolNoExtra : Setting Nat :=
  ⟨"d", 3, "general", "Name D", "Desc D", "boolean", none⟩

/-- Concrete fixture: a setting with an unrecognized kind and NULL `extra`. -/
def wsWeirdNoExtra : Setting Nat :=
  ⟨"w", 4, "general", "Name W", "Desc W", "weird", none⟩

/-- Concrete fixture: a setting with an unrecognized kind and an `extra`
dict. -/
def wsWeirdExtra : Setting Nat :=
  ⟨"w2", 5, "general", "Name W2", "Desc W2", "weird", some ⟨some 1, none, none, none⟩⟩

/-- Concrete fixture: a select setting whose `extra` lacks `choices`. -/
def wsSelNoChoices : Setting Nat :=
  ⟨"c", 2, "general", "Name C", "Desc C", "select", some ⟨none, none, none, none⟩⟩

/-- Concrete fixture: the `site_name` setting of the spec's examples. -/
def wsSite : Setting String :=
  ⟨"site_name", "Bar", "general", "Site Name", "The name", "string",
   some ⟨none, none, none, none⟩⟩

/-- Concrete fixture: the schema synthesized for `[wsInt]`. -/
def wSchemaInt : List (String × Field Nat) :=
  [("a", .integerField "Name A" [Validator.numberRangeMin 3] "Desc A")]

/-- Concrete fixture: the group `general`. -/
def wgGeneral : SettingsGroup :=
  ⟨"general", "General", "General settings"⟩

/-- Concrete fixture database over `Nat` values. -/
def wdb : DB Nat :=
  ⟨[wgGeneral], [wsInt]⟩

section Lemmas

variable {V : Type}

theorem dictSet_fresh (d : List (String × V)) (k : String) (v : V)
    (h : ∀ p ∈ d, p.1 ≠ k) : dictSet d k v = d ++ [(k, v)] := by
  induction d with
  | nil => rfl
  | cons a rest ih =>
    have hk : a.1 ≠ k := h a (List.mem_cons_self _ _)
    obtain ⟨k', v'⟩ := a
    simp only [dictSet, beq_iff_eq, if_neg hk, List.cons_append, List.cons.injEq, true_and]
    exact ih (fun p hp => h p (List.mem_cons_of_mem _ hp))

theorem foldl_dictSet (u : Bool) (l : List (Setting V)) (d : List (String × V))
    (hfresh : ∀ s ∈ l, ∀ p ∈ d, p.1 ≠ Setting.caseKey u s.key)
    (hnd : (l.map (fun s => Setting.caseKey u s.key)).Nodup) :
    l.foldl (fun d s => dictSet d (Setting.caseKey u s.key) s.value) d
      = d ++ l.map (fun s => (Setting.caseKey u s.key, s.value)) := by
  induction l generalizing d with
  | nil => simp
  | cons s rest ih =>
    rw [List.map_cons] at hnd
    obtain ⟨hhead, htail⟩ := List.nodup_cons.mp hnd
    simp only [List.foldl_cons]
    rw [dictSet_fresh _ _ _ (hfresh s (List.mem_cons_self _ _))]
    rw [ih]
    · simp
    · intro t ht p hp
      rcases List.mem_append.mp hp with h1 | h2
      · exact hfresh t (List.mem_cons_of_mem _ ht) p h1
      · have hp1 : p.1 = Setting.caseKey u s.key := by
          simp only [List.mem_singleton] at h2
          rw [h2]
        rw [hp1]
        intro hcontra
        exact hhead (hcontra ▸ List.mem_map_of_mem _ ht)
    · exact htail

theorem buildDict_nodup (u : Bool) (l : List (Setting V))
    (hnd : (l.map (fun s => Setting.caseKey u s.key)).Nodup) :
    Setting.buildDict u l = l.map (fun s => (Setting.caseKey u s.key, s.value)) := by
  have := foldl_dictSet u l [] (by intro s _ p hp; simp at hp) hnd
  simpa [Setting.buildDict] using this

theorem setValue_cons_pos (a : Setting V) (rest : List (Setting V)) (k : String)
    (v : V) (hk : (a.key == k) = true) :
    Setting.setValue (a :: rest) k v = { a with value := v } :: rest := by
  simp [Setting.setValue, hk]

theorem setValue_cons_neg (a : Setting V) (rest : List (Setting V)) (k : String)
    (v : V) (hk : ¬ (a.key == k) = true) :
    Setting.setValue (a :: rest) k v = a :: Setting.setValue rest k v := by
  simp [Setting.setValue, hk]

theorem setValue_keys (l : List (Setting V)) (k : String) (v : V) :
    (Setting.setValue l k v).map (·.key) = l.map (·.key) := by
  induction l with
  | nil => rfl
  | cons s rest ih =>
    by_cases hk : (s.key == k) = true
    · rw [setValue_cons_pos _ _ _ _ hk]
      rfl
    · rw [setValue_cons_neg _ _ _ _ hk, List.map_cons, List.map_cons, ih]

theorem setValue_find? (l : List (Setting V)) (k : String) (v : V) (s : Setting V)
    (h : l.find? (fun t => t.key == k) = some s) :
    (Setting.setValue l k v).find? (fun t => t.key == k)
      = some { s with value := v } := by
  induction l with
  | nil => simp [List.find?] at h
  | cons a rest ih =>
    by_cases hk : (a.key == k) = true
    · simp only [List.find?, hk] at h
      injection h with h
      subst h
      rw [setValue_cons_pos _ _ _ _ hk]
      simp [List.find?, hk]
    · have hk' : (a.key == k) = false := by simpa using hk
      simp only [List.find?, hk'] at h
      rw [setValue_cons_neg _ _ _ _ hk]
      simp only [List.find?, hk']
      exact ih h

theorem updateCore_cons_none (k : String) (v : V) (rest : List (String × V))
    (db : List (Setting V)) (acc : List (String × V))
    (hf : db.find? (fun s => s.key == pyLower k) = none) :
    Setting.updateCore ((k, v) :: rest) db acc
      = (db, acc, some (.attributeError "NoneType object has no attribute value")) := by
  simp [Setting.updateCore, hf]

theorem updateCore_cons_some (k : String) (v : V) (rest : List (String × V))
    (db : List (Setting V)) (acc : List (String × V)) (s : Setting V)
    (hf : db.find? (fun t => t.key == pyLower k) = some s) :
    Setting.updateCore ((k, v) :: rest) db acc
      = Setting.updateCore rest (Setting.setValue db (pyLower k) v)
          (dictSet acc (pyUpper s.key) v) := by
  simp [Setting.updateCore, hf]

theorem updateCore_keys (cs : List (String × V)) (db : List (Setting V))
    (acc : List (String × V)) :
    ((Setting.updateCore cs db acc).1).map (·.key) = db.map (·.key) := by
  induction cs generalizing db acc with
  | nil => rfl
  | cons c rest ih =>
    obtain ⟨k, v⟩ := c
    cases hf : db.find? (fun s => s.key == pyLower k) with
    | none => rw [updateCore_cons_none _ _ _ _ _ hf]
    | some s =>
      rw [updateCore_cons_some _ _ _ _ _ _ hf, ih, setValue_keys]

theorem updateCore_append (c1 c2 : List (String × V)) (db : List (Setting V))
    (acc : List (String × V))
    (h : (Setting.updateCore c1 db acc).2.2 = none) :
    Setting.updateCore (c1 ++ c2) db acc
      = Setting.updateCore c2 (Setting.updateCore c1 db acc).1
          (Setting.updateCore c1 db acc).2.1 := by
  induction c1 generalizing db acc with
  | nil => rfl
  | cons c rest ih =>
    obtain ⟨k, v⟩ := c
    cases hf : db.find? (fun s => s.key == pyLower k) with
    | none =>
      rw [updateCore_cons_none _ _ _ _ _ hf] at h
      simp at h
    | some s =>
      rw [updateCore_cons_some _ _ _ _ _ _ hf] at h ⊢
      rw [List.cons_append, updateCore_cons_some _ _ _ _ _ _ hf]
      exact ih _ _ h

theorem updateCore_acc (cs : List (String × V)) (db : List (Setting V))
    (acc : List (String × V))
    (hok : (Setting.updateCore cs db acc).2.2 = none)
    (hnd : (cs.map (fun p => pyUpper (pyLower p.1))).Nodup)
    (hfresh : ∀ c ∈ cs, ∀ q ∈ acc, q.1 ≠ pyUpper (pyLower c.1)) :
    (Setting.updateCore cs db acc).2.1
      = acc ++ cs.map (fun p => (pyUpper (pyLower p.1), p.2)) := by
  induction cs generalizing db acc with
  | nil => simp [Setting.updateCore]
  | cons c rest ih =>
    obtain ⟨k, v⟩ := c
    rw [List.map_cons] at hnd
    obtain ⟨hhead, htail⟩ := List.nodup_cons.mp hnd
    cases hf : db.find? (fun s => s.key == pyLower k) with
    | none =>
      rw [updateCore_cons_none _ _ _ _ _ hf] at hok
      simp at hok
    | some s =>
      rw [updateCore_cons_some _ _ _ _ _ _ hf] at hok ⊢
      have hs : s.key = pyLower k := by
        have := List.find?_some hf
        simpa using this
      have hfr : ∀ q ∈ acc, q.1 ≠ pyUpper s.key := by
        rw [hs]
        exact hfresh (k, v) (List.mem_cons_self _ _)
      rw [dictSet_fresh _ _ _ hfr] at hok ⊢
      rw [ih _ _ hok htail]
      · rw [hs]
        simp
      · intro c' hc' q hq
        rcases List.mem_append.mp hq with h1 | h2
        · exact hfresh c' (List.mem_cons_of_mem _ hc') q h1
        · have hq1 : q.1 = pyUpper (pyLower k) := by
            simp only [List.mem_singleton] at h2
            rw [h2, hs]
          rw [hq1]
          intro hcontra
          exact hhead (hcontra ▸ List.mem_map_of_mem _ hc')

theorem fieldSets_extra_none (s : Setting V) (hex : s.extra = none) :
    Setting.fieldSets s
      = .error (.typeError "argument of type NoneType is not iterable") := by
  simp [Setting.fieldSets, hex]

theorem fieldSets_integer (s : Setting V) (e : Extra V) (hex : s.extra = some e)
    (hv : s.value_type = "integer") :
    Setting.fieldSets s = .ok [(s.key, .integerField s.name
      (minValidators s.value_type e ++ maxValidators s.value_type e)
      s.description)] := by
  simp [Setting.fieldSets, hex, hv]

theorem fieldSets_float (s : Setting V) (e : Extra V) (hex : s.extra = some e)
    (hv : s.value_type = "float") :
    Setting.fieldSets s = .ok [(s.key, .floatField s.name
      (minValidators s.value_type e ++ maxValidators s.value_type e)
      s.description)] := by
  simp [Setting.fieldSets, hex, hv]

theorem fieldSets_string (s : Setting V) (e : Extra V) (hex : s.extra = some e)
    (hv : s.value_type = "string") :
    Setting.fieldSets s = .ok [(s.key, .textField s.name
      (minValidators s.value_type e ++ maxValidators s.value_type e)
      s.description)] := by
  simp [Setting.fieldSets, hex, hv]

theorem fieldSets_boolean (s : Setting V) (e : Extra V) (hex : s.extra = some e)
    (hv : s.value_type = "boolean") :
    Setting.fieldSets s
      = .ok [(s.key, .booleanField s.name s.description)] := by
  simp [Setting.fieldSets, hex, hv]

theorem fieldSets_selm_some (s : Setting V) (e : Extra V) (ch : List (V × String))
    (hex : s.extra = some e) (hv : s.value_type = "selectmultiple")
    (hc : e.choices = some ch) :
    Setting.fieldSets s = .ok
      [(s.key, .selectMultipleField s.name ch (coerceOf e) s.description)] := by
  simp [Setting.fieldSets, hex, hv, hc]

theorem fieldSets_selm_none (s : Setting V) (e : Extra V)
    (hex : s.extra = some e) (hv : s.value_type = "selectmultiple")
    (hc : e.choices = none) :
    Setting.fieldSets s = .error (.keyError "choices") := by
  simp [Setting.fieldSets, hex, hv, hc]

theorem fieldSets_sel_some (s : Setting V) (e : Extra V) (ch : List (V × String))
    (hex : s.extra = some e) (hv : s.value_type = "select")
    (hc : e.choices = some ch) :
    Setting.fieldSets s = .ok
      [(s.key, .selectField s.name (coerceOf e) ch s.description)] := by
  simp [Setting.fieldSets, hex, hv, hc]

theorem fieldSets_sel_none (s : Setting V) (e : Extra V)
    (hex : s.extra = some e) (hv : s.value_type = "select")
    (hc : e.choices = none) :
    Setting.fieldSets s = .error (.keyError "choices") := by
  simp [Setting.fieldSets, hex, hv, hc]

theorem fieldSets_unrecognized (s : Setting V) (e : Extra V)
    (hex : s.extra = some e)
    (h1 : s.value_type ≠ "integer") (h2 : s.value_type ≠ "float")
    (h3 : s.value_type ≠ "string") (h4 : s.value_type ≠ "boolean")
    (h5 : s.value_type ≠ "select") (h6 : s.value_type ≠ "selectmultiple") :
    Setting.fieldSets s = .ok [] := by
  simp [Setting.fieldSets, hex, h1, h2, h3, h4, h5, h6]

theorem fieldSets_keys (s : Setting V) (out : List (String × Field V))
    (h : Setting.fieldSets s = .ok out) : ∀ p ∈ out, p.1 = s.key := by
  cases hex : s.extra with
  | none => rw [fieldSets_extra_none _ hex] at h; simp at h
  | some e =>
    by_cases h1 : s.value_type = "integer"
    · rw [fieldSets_integer _ _ hex h1] at h
      injection h with h
      subst h
      simp
    by_cases h2 : s.value_type = "float"
    · rw [fieldSets_float _ _ hex h2] at h
      injection h with h
      subst h
      simp
    by_cases h3 : s.value_type = "string"
    · rw [fieldSets_string _ _ hex h3] at h
      injection h with h
      subst h
      simp
    by_cases h4 : s.value_type = "boolean"
    · rw [fieldSets_boolean _ _ hex h4] at h
      injection h with h
      subst h
      simp
    by_cases h5 : s.value_type = "select"
    · cases hc : e.choices with
      | none => rw [fieldSets_sel_none _ _ hex h5 hc] at h; simp at h
      | some ch =>
        rw [fieldSets_sel_some _ _ _ hex h5 hc] at h
        injection h with h
        subst h
        simp
    by_cases h6 : s.value_type = "selectmultiple"
    · cases hc : e.choices with
      | none => rw [fieldSets_selm_none _ _ hex h6 hc] at h; simp at h
      | some ch =>
        rw [fieldSets_selm_some _ _ _ hex h6 hc] at h
        injection h with h
        subst h
        simp
    rw [fieldSets_unrecognized _ _ hex h1 h2 h3 h4 h5 h6] at h
    injection h with h
    subst h
    simp

theorem fieldSets_recognized (s : Setting V) (out : List (String × Field V))
    (hk : s.value_type ∈ recognizedKinds) (h : Setting.fieldSets s = .ok out) :
    ∃ f : Field V, out = [(s.key, f)]
      ∧ f.fieldName = s.name ∧ f.fieldDesc = s.description := by
  cases hex : s.extra with
  | none => rw [fieldSets_extra_none _ hex] at h; simp at h
  | some e =>
    simp only [recognizedKinds, List.mem_cons, List.mem_singleton,
      List.not_mem_nil, or_false] at hk
    rcases hk with hv | hv | hv | hv | hv | hv
    · rw [fieldSets_integer _ _ hex hv] at h
      injection h with h
      subst h
      exact ⟨_, rfl, rfl, rfl⟩
    · rw [fieldSets_float _ _ hex hv] at h
      injection h with h
      subst h
      exact ⟨_, rfl, rfl, rfl⟩
    · rw [fieldSets_string _ _ hex hv] at h
      injection h with h
      subst h
      exact ⟨_, rfl, rfl, rfl⟩
    · rw [fieldSets_boolean _ _ hex hv] at h
      injection h with h
      subst h
      exact ⟨_, rfl, rfl, rfl⟩
    · cases hc : e.choices with
      | none => rw [fieldSets_sel_none _ _ hex hv hc] at h; simp at h
      | some ch =>
        rw [fieldSets_sel_some _ _ _ hex hv hc] at h
        injection h with h
        subst h
        exact ⟨_, rfl, rfl, rfl⟩
    · cases hc : e.choices with
      | none => rw [fieldSets_selm_none _ _ hex hv hc] at h; simp at h
      | some ch =>
        rw [fieldSets_selm_some _ _ _ hex hv hc] at h
        injection h with h
        subst h
        exact ⟨_, rfl, rfl, rfl⟩

theorem get_form_cons_ok (s : Setting V) (rest : List (Setting V))
    (out : List (String × Field V)) (h : Setting.fieldSets s = .ok out) :
    Setting.get_form (s :: rest)
      = match Setting.get_form rest with
        | .error e => .error e
        | .ok r => .ok (out ++ r) := by
  simp [Setting.get_form, h]

theorem get_form_cons_err (s : Setting V) (rest : List (Setting V))
    (e : PyError) (h : Setting.fieldSets s = .error e) :
    Setting.get_form (s :: rest) = .error e := by
  simp [Setting.get_form, h]

theorem get_form_keys (l : List (Setting V)) (r : List (String × Field V))
    (h : Setting.get_form l = .ok r) : ∀ p ∈ r, ∃ s ∈ l, p.1 = s.key := by
  induction l generalizing r with
  | nil =>
    injection h with h
    subst h
    simp
  | cons s rest ih =>
    cases hfs : Setting.fieldSets s with
    | error e => rw [get_form_cons_err _ _ _ hfs] at h; simp at h
    | ok out =>
      rw [get_form_cons_ok _ _ _ hfs] at h
      cases ht : Setting.get_form rest with
      | error e => rw [ht] at h; simp at h
      | ok r' =>
        rw [ht] at h
        injection h with h
        subst h
        intro p hp
        rcases List.mem_append.mp hp with h1 | h2
        · exact ⟨s, List.mem_cons_self _ _, fieldSets_keys s out hfs p h1⟩
        · obtain ⟨t, ht', hk⟩ := ih r' ht p h2
          exact ⟨t, List.mem_cons_of_mem _ ht', hk⟩

theorem get_form_append (l1 l2 : List (Setting V)) (w : List (String × Field V))
    (h : Setting.get_form l1 = .ok w) :
    Setting.get_form (l1 ++ l2)
      = match Setting.get_form l2 with
        | .error e => .error e
        | .ok r => .ok (w ++ r) := by
  induction l1 generalizing w with
  | nil =>
    injection h with h
    subst h
    cases hres : Setting.get_form l2 <;> simp [hres]
  | cons s t ih =>
    cases hfs : Setting.fieldSets s with
    | error e => rw [get_form_cons_err _ _ _ hfs] at h; simp at h
    | ok out =>
      rw [get_form_cons_ok _ _ _ hfs] at h
      cases ht : Setting.get_form t with
      | error e => rw [ht] at h; simp at h
      | ok r =>
        rw [ht] at h
        injection h with h
        subst h
        rw [List.cons_append, get_form_cons_ok _ _ _ hfs, ih r ht]
        cases hl2 : Setting.get_form l2 <;> simp

end Lemmas

/-- C10: form synthesis requires every setting in the group to have a
non-None `extra` mapping: if the group's enumeration reaches a setting with
`extra = None` (all settings before it having been processed without an
exception), `get_form` raises `TypeError` at the `"min" in setting.extra`
membership test, whatever the setting's `value_type` is — including kinds
such as boolean that use no extra metadata. -/
theorem C10_get_form_requires_extra (V : Type) (pre : List (Setting V))
    (w : List (String × Field V)) (s : Setting V) (post : List (Setting V))
    (hpre : Setting.get_form pre = .ok w) (hex : s.extra = none) :
    Setting.get_form (pre ++ s :: post)
      = .error (.typeError "argument of type NoneType is not iterable") := by
  rw [get_form_append _ _ _ hpre,
    get_form_cons_err _ _ _ (fieldSets_extra_none s hex)]

/-- Witness for C10 at a concrete input: a boolean setting with NULL
`extra` makes synthesis raise `TypeError`. -/
theorem C10_witness :
    Setting.get_form ([] : List (Setting Nat)) = .ok []
    ∧ wsBoolNoExtra.extra = none
    ∧ Setting.get_form ([] ++ wsBoolNoExtra :: [])
        = .error (.typeError "argument of type NoneType is not iterable") :=
  ⟨rfl, rfl, C10_get_form_requires_extra Nat [] [] wsBoolNoExtra [] rfl rfl⟩

/-- C4: a select or selectmultiple setting whose `extra` dict has no
`choices` entry makes `get_form` fail with `KeyError` (raised when
`setting.extra['choices']` is evaluated) rather than silently omitting the
field: the whole synthesis returns the error. -/
theorem C4_select_missing_choices (V : Type) (pre : List (Setting V))
    (w : List (String × Field V)) (s : Setting V) (post : List (Setting V))
    (e : Extra V)
    (hpre : Setting.get_form pre = .ok w)
    (hk : s.value_type = "select" ∨ s.value_type = "selectmultiple")
    (hex : s.extra = some e) (hc : e.choices = none) :
    Setting.get_form (pre ++ s :: post) = .error (.keyError "choices") := by
  rw [get_form_append _ _ _ hpre]
  rcases hk with hk | hk
  · rw [get_form_cons_err _ _ _ (fieldSets_sel_none s e hex hk hc)]
  · rw [get_form_cons_err _ _ _ (fieldSets_selm_none s e hex hk hc)]

/-- Witness for C4 at a concrete input: a select setting without
`choices`. -/
theorem C4_witness :
    Setting.get_form [wsInt] = .ok [("a", .integerField "Name A"
        [Validator.numberRangeMin 3] "Desc A")]
    ∧ (wsSelNoChoices.value_type = "select"
        ∨ wsSelNoChoices.value_type = "selectmultiple")
    ∧ wsSelNoChoices.extra = some ⟨none, none, none, none⟩
    ∧ Extra.choices (V := Nat) ⟨none, none, none, none⟩ = none
    ∧ Setting.get_form ([wsInt] ++ wsSelNoChoices :: [])
        = .error (.keyError "choices") :=
  ⟨rfl, Or.inl rfl, rfl, rfl,
   C4_select_missing_choices Nat [wsInt]
     [("a", .integerField "Name A" [Validator.numberRangeMin 3] "Desc A")]
     wsSelNoChoices [] ⟨none, none, none, none⟩
     rfl (Or.inl rfl) rfl rfl⟩

/-- C5 counterexample: the claim says a setting with unrecognized
`value_kind` never makes synthesis raise an error, but a setting whose
`value_type` is `weird` and whose `extra` is NULL makes `get_form` raise
`TypeError` at the `"min" in setting.extra` test. -/
theorem C5_counterexample :
    wsWeirdNoExtra.value_type ∉ recognizedKinds
    ∧ Setting.get_form [wsWeirdNoExtra]
        = .error (.typeError "argument of type NoneType is not iterable") := by
  constructor
  · decide
  · rfl

/-- C5 as amended: provided the setting's `extra` is a non-None mapping, a
setting whose `value_type` is outside the recognized set contributes no
field and raises no error — `get_form` of the group equals `get_form` of
the group without that setting, every other setting still being
processed. (With `extra` NULL the membership test raises `TypeError`
instead, see C10.) -/
theorem C5_unrecognized_kind_dropped (V : Type) (pre : List (Setting V))
    (s : Setting V) (post : List (Setting V)) (e : Extra V)
    (hu : s.value_type ∉ recognizedKinds) (hex : s.extra = some e) :
    Setting.fieldSets s = .ok []
    ∧ Setting.get_form (pre ++ s :: post) = Setting.get_form (pre ++ post) := by
  simp only [recognizedKinds, List.mem_cons, List.mem_singleton,
    List.not_mem_nil, or_false, not_or] at hu
  obtain ⟨h1, h2, h3, h4, h5, h6⟩ := hu
  have hfs := fieldSets_unrecognized s e hex h1 h2 h3 h4 h5 h6
  refine ⟨hfs, ?_⟩
  induction pre with
  | nil =>
    simp only [List.nil_append]
    rw [get_form_cons_ok _ _ _ hfs]
    cases h : Setting.get_form post <;> simp [h]
  | cons t rest ih =>
    cases hft : Setting.fieldSets t with
    | error e2 =>
      rw [List.cons_append, List.cons_append,
        get_form_cons_err _ _ _ hft, get_form_cons_err _ _ _ hft]
    | ok o =>
      rw [List.cons_append, List.cons_append,
        get_form_cons_ok _ _ _ hft, get_form_cons_ok _ _ _ hft, ih]

/-- Witness for the amended C5 at a concrete input: a `weird`-kind setting
with an `extra` dict is dropped and the rest of the group is processed. -/
theorem C5_witness :
    wsWeirdExtra.value_type ∉ recognizedKinds
    ∧ wsWeirdExtra.extra = some ⟨some 1, none, none, none⟩
    ∧ (Setting.fieldSets wsWeirdExtra = .ok []
       ∧ Setting.get_form ([wsInt] ++ wsWeirdExtra :: [wsBoolNoExtra])
           = Setting.get_form ([wsInt] ++ [wsBoolNoExtra])) :=
  ⟨by decide, rfl,
   C5_unrecognized_kind_dropped Nat [wsInt] wsWeirdExtra [wsBoolNoExtra] _
     (by decide) rfl⟩

/-- C2: when `get_form` succeeds on a group whose setting keys are distinct
(the primary-key invariant), every setting whose `value_type` is one of the
six recognized kinds gets exactly one field attached under its key, and that
field carries the setting's display name and description verbatim. -/
theorem C2_one_field_per_setting (V : Type) (settings : List (Setting V))
    (schema : List (String × Field V))
    (h : Setting.get_form settings = .ok schema)
    (hnd : (settings.map (·.key)).Nodup)
    (s : Setting V) (hs : s ∈ settings) (hk : s.value_type ∈ recognizedKinds) :
    (schema.filter (fun p => p.1 == s.key)).length = 1
    ∧ ∀ f : Field V, (s.key, f) ∈ schema →
        f.fieldName = s.name ∧ f.fieldDesc = s.description := by
  induction settings generalizing schema with
  | nil => cases hs
  | cons t rest ih =>
    cases hft : Setting.fieldSets t with
    | error e => rw [get_form_cons_err _ _ _ hft] at h; simp at h
    | ok out =>
      rw [get_form_cons_ok _ _ _ hft] at h
      cases hr : Setting.get_form rest with
      | error e => rw [hr] at h; simp at h
      | ok r =>
        rw [hr] at h
        injection h with h
        subst h
        rw [List.map_cons] at hnd
        obtain ⟨hhead, htail⟩ := List.nodup_cons.mp hnd
        rcases List.mem_cons.mp hs with rfl | hs'
        · obtain ⟨f, hout, hn, hd⟩ := fieldSets_recognized s out hk hft
          subst hout
          have hzero : r.filter (fun p => p.1 == s.key) = [] := by
            rw [List.filter_eq_nil_iff]
            intro p hp
            obtain ⟨u, hu, hku⟩ := get_form_keys rest r hr p hp
            simp only [beq_iff_eq, hku]
            intro hcontra
            exact hhead (hcontra ▸ List.mem_map_of_mem _ hu)
          constructor
          · simp [List.filter_append, hzero]
          · intro f' hf'
            rcases List.mem_append.mp hf' with h1 | h2
            · simp only [List.mem_singleton, Prod.mk.injEq, true_and] at h1
              rw [h1]
              exact ⟨hn, hd⟩
            · exfalso
              obtain ⟨u, hu, hku⟩ := get_form_keys rest r hr _ h2
              have hku' : s.key = u.key := hku
              apply hhead
              rw [hku']
              exact List.mem_map_of_mem _ hu
        · have hsk : s.key ∈ rest.map (·.key) := List.mem_map_of_mem _ hs'
          have hzero : out.filter (fun p => p.1 == s.key) = [] := by
            rw [List.filter_eq_nil_iff]
            intro p hp
            have hpk := fieldSets_keys t out hft p hp
            simp only [beq_iff_eq, hpk]
            intro hcontra
            exact hhead (hcontra ▸ hsk)
          obtain ⟨hlen, hfields⟩ := ih r hr htail hs'
          constructor
          · rw [List.filter_append, hzero, List.nil_append, hlen]
          · intro f' hf'
            rcases List.mem_append.mp hf' with h1 | h2
            · exfalso
              have hpk : (s.key : String) = t.key := fieldSets_keys t out hft _ h1
              exact hhead (hpk ▸ hsk)
            · exact hfields f' h2

/-- Witness for C2 at a concrete input: a two-setting group. -/
theorem C2_witness :
    Setting.get_form [wsInt, wsWeirdExtra] = .ok wSchemaInt
    ∧ ([wsInt, wsWeirdExtra].map (·.key)).Nodup
    ∧ wsInt ∈ [wsInt, wsWeirdExtra]
    ∧ wsInt.value_type ∈ recognizedKinds
    ∧ ((wSchemaInt.filter (fun p => p.1 == wsInt.key)).length = 1
       ∧ ∀ f : Field Nat, (wsInt.key, f) ∈ wSchemaInt →
           f.fieldName = wsInt.name ∧ f.fieldDesc = wsInt.description) :=
  ⟨rfl, by decide, by decide, by decide,
   C2_one_field_per_setting Nat [wsInt, wsWeirdExtra] wSchemaInt
     rfl (by decide) wsInt (by decide) (by decide)⟩

/-- C3: the `min`/`max` entries of `extra` become a numeric bound for
integer and float kinds and a length bound for the string kind, the
validator list built this way is exactly what the produced integer, float
or text field carries, and `min`/`max` on select-like kinds yield a field
with no constraint and no error (provided `choices` is present). -/
theorem C3_min_max_validators (V : Type) (s : Setting V) (e : Extra V)
    (m : Int) (hex : s.extra = some e) :
    ((e.min = some m ∧ (s.value_type = "integer" ∨ s.value_type = "float")) →
        minValidators s.value_type e = [Validator.numberRangeMin m])
    ∧ ((e.min = some m ∧ s.value_type = "string") →
        minValidators s.value_type e = [Validator.lengthMin m])
    ∧ ((e.max = some m ∧ (s.value_type = "integer" ∨ s.value_type = "float")) →
        maxValidators s.value_type e = [Validator.numberRangeMax m])
    ∧ ((e.max = some m ∧ s.value_type = "string") →
        maxValidators s.value_type e = [Validator.lengthMax m])
    ∧ ((s.value_type = "integer" ∨ s.value_type = "float"
          ∨ s.value_type = "string") →
        ∃ f : Field V, Setting.fieldSets s = .ok [(s.key, f)]
          ∧ f.fieldValidators
              = minValidators s.value_type e ++ maxValidators s.value_type e)
    ∧ ((s.value_type = "select" ∨ s.value_type = "selectmultiple") →
        ∀ ch, e.choices = some ch →
          ∃ f : Field V, Setting.fieldSets s = .ok [(s.key, f)]
            ∧ f.fieldValidators = []) := by
  have hss : pyInStr "string" "string" = true := by decide
  refine ⟨?_, ?_, ?_, ?_, ?_, ?_⟩
  · rintro ⟨hm, hv | hv⟩ <;> simp [minValidators, hm, hv]
  · rintro ⟨hm, hv⟩
    simp [minValidators, hm, hv, hss]
  · rintro ⟨hm, hv | hv⟩ <;> simp [maxValidators, hm, hv]
  · rintro ⟨hm, hv⟩
    simp [maxValidators, hm, hv, hss]
  · rintro (hv | hv | hv)
    · exact ⟨_, fieldSets_integer s e hex hv, rfl⟩
    · exact ⟨_, fieldSets_float s e hex hv, rfl⟩
    · exact ⟨_, fieldSets_string s e hex hv, rfl⟩
  · rintro (hv | hv) ch hc
    · exact ⟨_, fieldSets_sel_some s e ch hex hv hc, rfl⟩
    · exact ⟨_, fieldSets_selm_some s e ch hex hv hc, rfl⟩

/-- Witness for C3 at a concrete input: an integer setting with
`extra = dict(min=3)` carries the numeric lower bound 3. -/
theorem C3_witness :
    wsInt.extra = some ⟨some 3, none, none, none⟩
    ∧ minValidators wsInt.value_type (⟨some 3, none, none, none⟩ : Extra Nat)
        = [Validator.numberRangeMin 3] :=
  ⟨rfl,
   (C3_min_max_validators Nat wsInt ⟨some 3, none, none, none⟩ 3 rfl).1
     ⟨rfl, Or.inl rfl⟩⟩

/-- C1 counterexample: on a store holding only the setting `a`, updating
the absent key `b` makes `update` fail — but with `AttributeError` (from
`first()` returning `None` and `setting.value = value` dereferencing it),
not with `NotFound` as the claim states. -/
theorem C1_counterexample :
    (Setting.update [wsInt] [("b", (5 : Nat))]).2.2
        = some (.attributeError "NoneType object has no attribute value")
    ∧ some (PyError.attributeError "NoneType object has no attribute value")
        ≠ some PyError.notFound := by
  constructor
  · rfl
  · decide

/-- C1 as amended: each entry of `update` looks its setting up by the
lower-cased key; when no setting with that key exists the call fails with
`AttributeError` (a `None` dereference, not `NotFound`), and because every
entry is committed independently, the entries processed before the failing
one keep their newly persisted values: the store equals the one produced by
updating the earlier entries alone. -/
theorem C1_update_fails_keeps_prior (V : Type) (db : List (Setting V))
    (c1 : List (String × V)) (k : String) (v : V) (c2 : List (String × V))
    (hok : (Setting.update db c1).2.2 = none)
    (habs : ∀ s ∈ db, s.key ≠ pyLower k) :
    (Setting.update db (c1 ++ (k, v) :: c2)).2.2
        = some (.attributeError "NoneType object has no attribute value")
    ∧ (Setting.update db (c1 ++ (k, v) :: c2)).1 = (Setting.update db c1).1 := by
  unfold Setting.update at hok ⊢
  rw [updateCore_append _ _ _ _ hok]
  have hfind : (Setting.updateCore c1 db []).1.find?
      (fun s => s.key == pyLower k) = none := by
    rw [List.find?_eq_none]
    intro t ht
    have hmem : t.key ∈ db.map (·.key) := by
      rw [← updateCore_keys c1 db []]
      exact List.mem_map_of_mem _ ht
    obtain ⟨u, hu, hk⟩ := List.mem_map.mp hmem
    simp only [beq_iff_eq]
    rw [← hk]
    exact habs u hu
  rw [updateCore_cons_none _ _ _ _ _ hfind]
  exact ⟨rfl, rfl⟩

/-- Witness for the amended C1 at a concrete input: updating `A` (found
case-insensitively) and then the absent `b` raises `AttributeError` and
keeps the persisted update of `a`. -/
theorem C1_witness :
    (Setting.update [wsInt] [("A", (7 : Nat))]).2.2 = none
    ∧ (∀ s ∈ [wsInt], s.key ≠ pyLower "b")
    ∧ ((Setting.update [wsInt] ([("A", (7 : Nat))] ++ ("b", 5) :: [])).2.2
          = some (.attributeError "NoneType object has no attribute value")
       ∧ (Setting.update [wsInt] ([("A", (7 : Nat))] ++ ("b", 5) :: [])).1
          = (Setting.update [wsInt] [("A", (7 : Nat))]).1) :=
  ⟨rfl, by decide,
   C1_update_fails_keeps_prior Nat [wsInt] [("A", 7)] "b" 5 [] rfl (by decide)⟩

/-- C7: when `update(changes, app)` finishes without an exception and the
change keys collide on no upper-cased key (in particular whenever the keys
are distinct settings), the `updated_settings` dict holds exactly the
upper-cased stored keys of the updated settings (the lower-cased input
keys, upper-cased) mapped to their new values; with an `app` its config
receives all of them in one `config.update` pass, and with `app = None` no
config is written. -/
theorem C7_sink_receives_updates (V : Type) (db : List (Setting V))
    (changes : List (String × V)) (cfg : List (String × V))
    (hok : (Setting.update db changes).2.2 = none)
    (hnd : (changes.map (fun p => pyUpper (pyLower p.1))).Nodup) :
    (Setting.update db changes).2.1
        = changes.map (fun p => (pyUpper (pyLower p.1), p.2))
    ∧ Setting.updateApp db changes (some cfg)
        = ((Setting.update db changes).1,
           some (dictUpdateAll cfg
             (changes.map (fun p => (pyUpper (pyLower p.1), p.2)))), none)
    ∧ Setting.updateApp db changes none
        = ((Setting.update db changes).1, none, none) := by
  have hacc := updateCore_acc changes db [] hok hnd
    (by intro c hc q hq; simp at hq)
  rw [List.nil_append] at hacc
  have hacc' : (Setting.update db changes).2.1
      = changes.map (fun p => (pyUpper (pyLower p.1), p.2)) := hacc
  refine ⟨hacc', ?_, ?_⟩
  · unfold Setting.updateApp
    rw [← hacc']
    simp only [hok]
  · unfold Setting.updateApp
    simp only [hok]

/-- Witness for C7 at a concrete input: the spec's example
`update({"site_name": "Foo"}, sink)` yields `sink["SITE_NAME"] = "Foo"`. -/
theorem C7_witness :
    (Setting.update [wsSite] [("site_name", "Foo")]).2.2 = none
    ∧ ([("site_name", "Foo")].map
        (fun p : String × String => pyUpper (pyLower p.1))).Nodup
    ∧ ((Setting.update [wsSite] [("site_name", "Foo")]).2.1
          = [("site_name", "Foo")].map
              (fun p : String × String => (pyUpper (pyLower p.1), p.2))
       ∧ Setting.updateApp [wsSite] [("site_name", "Foo")] (some [])
          = ((Setting.update [wsSite] [("site_name", "Foo")]).1,
             some (dictUpdateAll []
               ([("site_name", "Foo")].map
                 (fun p : String × String => (pyUpper (pyLower p.1), p.2)))),
             none)
       ∧ Setting.updateApp [wsSite] [("site_name", "Foo")] none
          = ((Setting.update [wsSite] [("site_name", "Foo")]).1, none, none)) :=
  ⟨rfl, by decide,
   C7_sink_receives_updates String [wsSite] [("site_name", "Foo")] []
     rfl (by decide)⟩

/-- A concrete corollary of C7's witness input: the sink dict literally
ends up holding the upper-cased key. -/
theorem C7_example_value :
    (Setting.updateApp [wsSite] [("site_name", "Foo")] (some [])).2.1
      = some [("SITE_NAME", "Foo")] := by
  rfl

/-- C6: round-trip.  On a store with distinct setting keys, updating an
existing key `k` (matched through its lower-cased form) with value `v`
succeeds, and reading back through `get_all` or `as_dict` yields exactly
`v` for that key. -/
theorem C6_round_trip (V : Type) (db : DB V) (k : String) (v : V)
    (s : Setting V)
    (hnd : (db.settings.map (·.key)).Nodup)
    (hs : s ∈ db.settings) (hk : s.key = pyLower k) :
    (Setting.update db.settings [(k, v)]).2.2 = none
    ∧ (∃ t ∈ Setting.get_all
          ⟨db.groups, (Setting.update db.settings [(k, v)]).1⟩,
         t.key = pyLower k ∧ t.value = v)
    ∧ ∃ d, Setting.as_dict
          ⟨db.groups, (Setting.update db.settings [(k, v)]).1⟩ none false
            = .ok d
        ∧ dictGet d (pyLower k) = some v := by
  obtain ⟨s', hf⟩ : ∃ s', db.settings.find?
      (fun t => t.key == pyLower k) = some s' := by
    have hsome : (db.settings.find? (fun t => t.key == pyLower k)).isSome :=
      List.find?_isSome.mpr ⟨s, hs, by simp [hk]⟩
    exact Option.isSome_iff_exists.mp hsome
  have hupd : Setting.update db.settings [(k, v)]
      = (Setting.setValue db.settings (pyLower k) v,
         dictSet [] (pyUpper s'.key) v, none) := by
    unfold Setting.update
    rw [updateCore_cons_some _ _ _ _ _ _ hf]
    rfl
  have hf' := setValue_find? db.settings (pyLower k) v s' hf
  have hs'key : s'.key = pyLower k := by
    have := List.find?_some hf
    simpa using this
  refine ⟨by rw [hupd], ?_, ?_⟩
  · refine ⟨{ s' with value := v }, ?_, hs'key, rfl⟩
    rw [hupd]
    exact List.mem_of_find?_eq_some hf'
  · rw [hupd]
    have hkeys : ((Setting.setValue db.settings (pyLower k) v).map
        (fun t => Setting.caseKey false t.key)).Nodup := by
      have hid : (fun t : Setting V => Setting.caseKey false t.key)
          = (fun t : Setting V => t.key) := by
        funext t
        simp [Setting.caseKey]
      rw [hid]
      have : (Setting.setValue db.settings (pyLower k) v).map (·.key)
          = db.settings.map (·.key) := setValue_keys _ _ _
      rw [show ((fun t : Setting V => t.key)) = (·.key) from rfl, this]
      exact hnd
    refine ⟨Setting.buildDict false
        (Setting.setValue db.settings (pyLower k) v), ?_, ?_⟩
    · rfl
    · rw [buildDict_nodup false _ hkeys]
      have hcase : (fun t : Setting V =>
          (Setting.caseKey false t.key, t.value))
            = (fun t : Setting V => (t.key, t.value)) := by
        funext t
        simp [Setting.caseKey]
      rw [hcase]
      unfold dictGet
      rw [List.find?_map]
      have hcomp : ((fun p : String × V => p.1 == pyLower k)
          ∘ (fun t : Setting V => (t.key, t.value)))
            = (fun t : Setting V => t.key == pyLower k) := rfl
      rw [hcomp, hf']
      rfl

/-- Witness for C6 at a concrete input: updating key `A` on the fixture
store and reading the value back. -/
theorem C6_witness :
    (([wsInt] : List (Setting Nat)).map (·.key)).Nodup
    ∧ wsInt ∈ wdb.settings
    ∧ wsInt.key = pyLower "A"
    ∧ ((Setting.update wdb.settings [("A", 9)]).2.2 = none
       ∧ (∃ t ∈ Setting.get_all
              ⟨wdb.groups, (Setting.update wdb.settings [("A", 9)]).1⟩,
            t.key = pyLower "A" ∧ t.value = 9)
       ∧ ∃ d, Setting.as_dict
              ⟨wdb.groups, (Setting.update wdb.settings [("A", 9)]).1⟩
                none false = .ok d
            ∧ dictGet d (pyLower "A") = some 9) :=
  ⟨by decide, by decide, by decide,
   C6_round_trip Nat wdb "A" 9 wsInt (by decide) (by decide) (by decide)⟩

/-- C8: `as_dict` with an unknown group key fails with `NotFound`; with a
known group key (and no collision among that group's cased keys, the
primary-key invariant) it returns exactly that group's key-value pairs,
cased by `upper`; with no group it returns all settings, cased by
`upper`. -/
theorem C8_as_dict (V : Type) (db : DB V) (g : String) (u : Bool) :
    ((∀ gr ∈ db.groups, gr.key ≠ g) →
        Setting.as_dict db (some g) u = .error .notFound)
    ∧ (∀ gr, db.groups.find? (fun x => x.key == g) = some gr →
        ((Setting.groupSettings db gr).map
            (fun s => Setting.caseKey u s.key)).Nodup →
        Setting.as_dict db (some g) u
          = .ok ((Setting.groupSettings db gr).map
              (fun s => (Setting.caseKey u s.key, s.value))))
    ∧ ((db.settings.map (fun s => Setting.caseKey u s.key)).Nodup →
        Setting.as_dict db none u
          = .ok (db.settings.map
              (fun s => (Setting.caseKey u s.key, s.value)))) := by
  refine ⟨?_, ?_, ?_⟩
  · intro habs
    have hfind : db.groups.find? (fun gr => gr.key == g) = none := by
      rw [List.find?_eq_none]
      intro gr hgr
      simp only [beq_iff_eq]
      exact habs gr hgr
    simp [Setting.as_dict, hfind]
  · intro gr hgr hnd
    simp only [Setting.as_dict, hgr]
    rw [buildDict_nodup u _ hnd]
  · intro hnd
    simp only [Setting.as_dict]
    rw [buildDict_nodup u _ hnd]

/-- Witness for C8 at a concrete input: the fixture database and the group
`general`. -/
theorem C8_witness :
    (∀ gr ∈ wdb.groups, gr.key ≠ "missing")
    ∧ wdb.groups.find? (fun x => x.key == "general") = some wgGeneral
    ∧ ((Setting.groupSettings wdb wgGeneral).map
        (fun s => Setting.caseKey true s.key)).Nodup
    ∧ (Setting.as_dict wdb (some "missing") true = .error .notFound
       ∧ Setting.as_dict wdb (some "general") true
          = .ok ((Setting.groupSettings wdb wgGeneral).map
              (fun s => (Setting.caseKey true s.key, s.value)))) :=
  ⟨by decide, by decide, by decide,
   (C8_as_dict Nat wdb "missing" true).1 (by decide),
   (C8_as_dict Nat wdb "general" true).2.1 wgGeneral (by decide) (by decide)⟩

/-- C9 counterexample: the claim says every public key lookup lower-cases
the supplied key before matching, but the group lookup of `as_dict` matches
the supplied key verbatim: on a database whose only group key is `general`,
`as_dict(from_group="General")` fails with `NotFound` while the lower-cased
key succeeds. -/
theorem C9_counterexample :
    Setting.as_dict (⟨[wgGeneral], []⟩ : DB Nat) (some "General") false
        = .error .notFound
    ∧ Setting.as_dict (⟨[wgGeneral], []⟩ : DB Nat) (some (pyLower "General"))
        false = .ok [] := by
  constructor
  · rfl
  · rfl

/-- C9 as amended: the setting-key lookup of `update` is case-insensitive
(the supplied key is lower-cased before matching) and keys written to the
host config are upper-cased stored keys, but the group-key lookup of
`as_dict` is case-sensitive: the supplied group key is matched verbatim. -/
theorem C9_key_casing (V : Type) (db : DB V) (k g : String) (v : V)
    (u : Bool) :
    ((Setting.update db.settings [(k, v)]).2.2 = none
        ↔ ∃ s ∈ db.settings, s.key = pyLower k)
    ∧ (Setting.as_dict db (some g) u ≠ .error .notFound
        ↔ ∃ gr ∈ db.groups, gr.key = g)
    ∧ (∀ s, db.settings.find? (fun t => t.key == pyLower k) = some s →
        (Setting.update db.settings [(k, v)]).2.1 = [(pyUpper s.key, v)]) := by
  refine ⟨?_, ?_, ?_⟩
  · cases hf : db.settings.find? (fun t => t.key == pyLower k) with
    | none =>
      constructor
      · intro h
        exfalso
        unfold Setting.update at h
        rw [updateCore_cons_none _ _ _ _ _ hf] at h
        simp at h
      · intro ⟨s, hs, hk⟩
        exfalso
        rw [List.find?_eq_none] at hf
        exact hf s hs (by simp [hk])
    | some s =>
      constructor
      · intro _
        refine ⟨s, List.mem_of_find?_eq_some hf, ?_⟩
        have := List.find?_some hf
        simpa using this
      · intro _
        unfold Setting.update
        rw [updateCore_cons_some _ _ _ _ _ _ hf]
        rfl
  · cases hg : db.groups.find? (fun gr => gr.key == g) with
    | none =>
      constructor
      · intro h
        exfalso
        apply h
        simp [Setting.as_dict, hg]
      · intro ⟨gr, hgr, hk⟩
        exfalso
        rw [List.find?_eq_none] at hg
        exact hg gr hgr (by simp [hk])
    | some gr =>
      constructor
      · intro _
        refine ⟨gr, List.mem_of_find?_eq_some hg, ?_⟩
        have := List.find?_some hg
        simpa using this
      · intro _
        simp [Setting.as_dict, hg]
  · intro s hf
    unfold Setting.update
    rw [updateCore_cons_some _ _ _ _ _ _ hf]
    rfl

/-- Witness for the amended C9 at a concrete input. -/
theorem C9_witness :
    wdb.settings.find? (fun t => t.key == pyLower "A") = some wsInt
    ∧ ((Setting.update wdb.settings [("A", (9 : Nat))]).2.2 = none
        ↔ ∃ s ∈ wdb.settings, s.key = pyLower "A")
    ∧ (Setting.update wdb.settings [("A", (9 : Nat))]).2.1
        = [(pyUpper wsInt.key, 9)] :=
  ⟨by decide,
   (C9_key_casing Nat wdb "A" "general" 9 false).1,
   (C9_key_casing Nat wdb "A" "general" 9 false).2.2 wsInt (by decide)⟩

end Flaskbb
